import Mathlib

/-!
Verification of the ai-osp fiber-network planning gateway.

The repository holds two thin web scaffolds (`src/server/main.py`,
`src/server/config.py`, `src/client/app.py`, `src/client/config.py`).
The server's role table (`SERVER_ROLES`), configuration fallback
(`SERVER_CONFIG`) and the placeholder planning endpoint (`plan_sync`)
are embedded directly from the source.  The dispatch / tier-registry /
fingerprint-cache / gateway core described by the specification is not
present in the source tree (the spec states it "did not exist as working
code"), so those components are modelled from the spec's own contracts,
each marked `Modelled from the spec:` in its doc comment.
-/

/-- An opaque planning payload, stored verbatim and never interpreted
by the core (spec, Data model: PlanningResult). -/
structure PlanningResult where
  payload : String
deriving DecidableEq, Repr

/-- A backend planning server, embedded from the entries of
`SERVER_ROLES` in `src/server/config.py`: name, description,
`max_sites`, `timeout_seconds`, `enabled`. -/
structure Tier where
  name : String
  description : String
  max_sites : Nat
  timeout_seconds : Nat
  enabled : Bool
deriving DecidableEq, Repr

/-- The `'A'` entry of `SERVER_ROLES` (`src/server/config.py` lines 18-24). -/
def tierA : Tier :=
  { name := "Planning Server A"
    description := "Fast, always-on planning server for simple networks"
    max_sites := 20
    timeout_seconds := 5
    enabled := true }

/-- The `'B'` entry of `SERVER_ROLES` (`src/server/config.py` lines 25-31). -/
def tierB : Tier :=
  { name := "Planning Server B"
    description := "High-capacity planning server for complex networks"
    max_sites := 1000
    timeout_seconds := 600
    enabled := true }

/-- `SERVER_ROLES` from `src/server/config.py`: the dict mapping server
id to role record, embedded as an association list. -/
def SERVER_ROLES : List (String × Tier) := [("A", tierA), ("B", tierB)]

/-- `SERVER_CONFIG = SERVER_ROLES.get(SERVER_ID, SERVER_ROLES['A'])`
(`src/server/config.py` line 34), as a function of the `SERVER_ID`
environment value. -/
def SERVER_CONFIG (server_id : String) : Tier :=
  (SERVER_ROLES.lookup server_id).getD tierA

/-- Responses of the planning endpoint: either a planning result with an
HTTP status, or a JSON failure body with status, error and message. -/
inductive PlanResponse where
  | result (r : PlanningResult) (status : Nat)
  | failure (status : Nat) (error : String) (message : String)
deriving DecidableEq, Repr

/-- `plan_sync` from `src/server/main.py` lines 60-69: the placeholder
`POST /v1/plan/sync` handler.  For every request body it returns a
`JSONResponse` with status 501 and a fixed error payload. -/
def plan_sync (request : List (String × String)) : PlanResponse :=
  PlanResponse.failure 501
    "Planning endpoint not yet implemented"
    "Phase 5: AI Planning Implementation"

/-- Terminal gateway outcomes, from the spec's error taxonomy. -/
inductive GatewayOutcome where
  | success (r : PlanningResult)
  | invalidRequest
  | allTiersExhausted
  | timeout
  | unexpected
deriving DecidableEq, Repr

/-- Modelled from the spec: the status-code mapping of the core-exposed
`POST /plan` surface, absent from the source tree.  "InvalidRequest →
400, AllTiersExhausted/Timeout → 504/503, unexpected → 500"; success
returns the PlanningResult as JSON (200); 202-style deferral is not
used. -/
def planStatus : GatewayOutcome → Nat
  | GatewayOutcome.success _ => 200
  | GatewayOutcome.invalidRequest => 400
  | GatewayOutcome.allTiersExhausted => 504
  | GatewayOutcome.timeout => 503
  | GatewayOutcome.unexpected => 500

/-- Capacity order on tiers: ascending by maximum supported size. -/
def capLE (a b : Tier) : Prop := a.max_sites ≤ b.max_sites

instance : DecidableRel capLE := fun a b => Nat.decLe a.max_sites b.max_sites

instance : IsTotal Tier capLE := ⟨fun a b => Nat.le_total a.max_sites b.max_sites⟩

instance : IsTrans Tier capLE := ⟨fun _ _ _ h h' => Nat.le_trans h h'⟩

/-- Modelled from the spec: the Tier Registry operation
`tiersOrderedByCapacity()` (absent from the source tree) — the enabled
tiers of the registry, ascending by maximum size. -/
def tiersOrderedByCapacity (reg : List Tier) : List Tier :=
  List.insertionSort capLE (reg.filter (fun t => t.enabled))

/-- Modelled from the spec: the Tier Registry operation
`tierFor(sizeMetric)` (absent from the source tree) — the
smallest-capacity enabled Tier whose maximum size is at least the size
metric, `none` if no Tier qualifies. -/
def tierFor (reg : List Tier) (s : Nat) : Option Tier :=
  (tiersOrderedByCapacity reg).find? (fun t => decide (s ≤ t.max_sites))

/-- Modelled from the spec: the tail of a fallback chain — from a
capacity-ascending candidate list, keep only tiers of strictly higher
capacity than the running maximum `cap`, so each fallback step goes to a
strictly higher-capacity tier and no tier is revisited. -/
def strictAscendAux (cap : Nat) : List Tier → List Tier
  | [] => []
  | t :: ts =>
    if cap < t.max_sites then t :: strictAscendAux t.max_sites ts
    else strictAscendAux cap ts

/-- Modelled from the spec: the fallback chain of a request of size `s`
— the first tier is `tierFor s`, and each later tier is the next
strictly higher-capacity enabled tier (spec §4.3 step 4 and glossary
"Fallback chain"). -/
def fallbackChain (reg : List Tier) (s : Nat) : List Tier :=
  match (tiersOrderedByCapacity reg).filter (fun t => decide (s ≤ t.max_sites)) with
  | [] => []
  | t :: ts => t :: strictAscendAux t.max_sites ts

/-- Outcome of one backend attempt at one tier (spec §6 Backend Tier
endpoint / §7 taxonomy): success, or a deadline expiry, or a backend
failure. -/
inductive Outcome where
  | success (r : PlanningResult)
  | timeout
  | backendError
deriving DecidableEq, Repr

/-- Result of `dispatch` (spec §4.3 contract). -/
inductive DispatchResult where
  | ok (r : PlanningResult)
  | allTiersExhausted
deriving DecidableEq, Repr

/-- Modelled from the spec: walking the fallback chain — try each tier
in order, return the first success, fail with `AllTiersExhausted` when
the chain is exhausted (spec §4.3 steps 2-5). -/
def runChain (backend : Tier → Outcome) : List Tier → DispatchResult
  | [] => DispatchResult.allTiersExhausted
  | t :: ts =>
    match backend t with
    | Outcome.success r => DispatchResult.ok r
    | _ => runChain backend ts

/-- Modelled from the spec: the tiers actually contacted while walking
the chain — every tier up to and including the first success, or the
whole chain when every attempt fails. -/
def contacted (backend : Tier → Outcome) : List Tier → List Tier
  | [] => []
  | t :: ts =>
    match backend t with
    | Outcome.success _ => [t]
    | _ => t :: contacted backend ts

/-- Modelled from the spec: `dispatch(request)` (spec §4.3, absent from
the source tree), over a registry, a backend oracle giving each tier's
response, and the request's size metric. -/
def dispatch (reg : List Tier) (backend : Tier → Outcome) (s : Nat) : DispatchResult :=
  runChain backend (fallbackChain reg s)

/-- Modelled from the spec: the tiers `dispatch` contacts for a request
of size `s` — the observable footprint of the fallback walk. -/
def contactedTiers (reg : List Tier) (backend : Tier → Outcome) (s : Nat) : List Tier :=
  contacted backend (fallbackChain reg s)

/-- The registry induced by `SERVER_ROLES`: Tier A then Tier B. -/
def defaultRegistry : List Tier := SERVER_ROLES.map Prod.snd

/-- A cache entry: value, creation time, expiry time (spec, Data model:
CacheEntry). -/
structure CacheEntry where
  value : PlanningResult
  created : Nat
  expiry : Nat
deriving DecidableEq, Repr

/-- The Fingerprint Cache state: an association list from fingerprints
to entries, the most recent binding first. -/
def Cache : Type := List (String × CacheEntry)

instance : DecidableEq Cache := inferInstanceAs (DecidableEq (List (String × CacheEntry)))

namespace FCache

/-- Modelled from the spec: the Fingerprint Cache operation
`lookup(fingerprint)` (absent from the source tree) — a pure function
of the cache state and the current time, so it never blocks on backend
work; an entry is served only up to its expiry time (TTL expiry is
checked on every lookup). -/
def lookup (c : Cache) (now : Nat) (f : String) : Option PlanningResult :=
  match List.lookup f c with
  | some e => if now ≤ e.expiry then some e.value else none
  | none => none

/-- Modelled from the spec: the Fingerprint Cache operation
`store(fingerprint, result, ttl)` (absent from the source tree) — when
a live entry already exists the original cached value wins (spec §7
CacheInconsistency); otherwise a fresh entry with expiry `now + ttl` is
installed, shadowing any expired binding. -/
def store (c : Cache) (now : Nat) (f : String) (v : PlanningResult) (ttl : Nat) : Cache :=
  match List.lookup f c with
  | some e => if now ≤ e.expiry then c else (f, ⟨v, now, now + ttl⟩) :: c
  | none => (f, ⟨v, now, now + ttl⟩) :: c

end FCache

/-- Modelled from the spec: the sequential skeleton of the Gateway
Service `handle` (spec §4.4, absent from the source tree) — cache
lookup, on hit return the cached result with no Dispatcher call, on
miss invoke the Dispatcher and store a successful result with the
configured TTL.  Returns the response, the new cache state, and whether
the Dispatcher was invoked. -/
def handle (reg : List Tier) (backend : Tier → Outcome) (c : Cache)
    (now ttl : Nat) (f : String) (s : Nat) : DispatchResult × Cache × Bool :=
  match FCache.lookup c now f with
  | some v => (DispatchResult.ok v, c, false)
  | none =>
    match dispatch reg backend s with
    | DispatchResult.ok r => (DispatchResult.ok r, FCache.store c now f r ttl, true)
    | e => (e, c, true)

namespace Dedup

/-- Modelled from the spec: the phase of one `handle` caller for a fixed
Fingerprint in the reserve/await-in-flight protocol (spec §4.4 steps
3-4, §5): not yet at the reservation step, awaiting another caller's
reservation, holding the reservation and computing, or finished with an
outcome. -/
inductive Phase (α : Type) where
  | init
  | waiting
  | computing
  | done (o : α)
deriving DecidableEq

/-- Modelled from the spec: the shared state for one Fingerprint —
each caller's phase, the current reservation holder, the published
outcome, and the number of backend invocations made so far. -/
structure SysState (α : Type) where
  phases : Nat → Phase α
  resv : Option Nat
  result : Option α
  invoked : Nat

/-- Pointwise update of one caller's phase. -/
def setPhase {α : Type} (p : Nat → Phase α) (i : Nat) (v : Phase α) : Nat → Phase α :=
  fun j => if j = i then v else p j

/-- Modelled from the spec: one atomic step of the reserve/release
protocol (spec §5: reservation is atomic check-and-set; waiters await
the in-flight computation; the winner invokes the backend, publishes
the outcome and releases).  Any interleaving of concurrent `handle`
calls for one Fingerprint is a sequence of these steps. -/
inductive Step {α : Type} : SysState α → SysState α → Prop where
  | acquire (s : SysState α) (i : Nat) :
      s.phases i = Phase.init → s.resv = none → s.result = none →
      Step s ⟨setPhase s.phases i Phase.computing, some i, none, s.invoked + 1⟩
  | join (s : SysState α) (i j : Nat) :
      s.phases i = Phase.init → s.resv = some j →
      Step s ⟨setPhase s.phases i Phase.waiting, s.resv, s.result, s.invoked⟩
  | hit (s : SysState α) (i : Nat) (o : α) :
      s.phases i = Phase.init → s.result = some o →
      Step s ⟨setPhase s.phases i (Phase.done o), s.resv, s.result, s.invoked⟩
  | complete (s : SysState α) (i : Nat) (o : α) :
      s.phases i = Phase.computing →
      Step s ⟨setPhase s.phases i (Phase.done o), none, some o, s.invoked⟩
  | collect (s : SysState α) (i : Nat) (o : α) :
      s.phases i = Phase.waiting → s.result = some o →
      Step s ⟨setPhase s.phases i (Phase.done o), s.resv, s.result, s.invoked⟩

/-- The initial state: every caller before the reservation step, no
reservation, no result, no backend invocation. -/
def init (α : Type) : SysState α :=
  ⟨fun _ => Phase.init, none, none, 0⟩

/-- The states reachable from `init` by interleaved atomic steps. -/
def Reachable {α : Type} (s : SysState α) : Prop :=
  Relation.ReflTransGen Step (init α) s

/-- The inductive invariant of the protocol: before any invocation
(nothing computing, nothing done), during the single in-flight
computation (one holder, one invocation, no result yet), or after
publication (one invocation, result fixed, every finished caller saw
it). -/
def Inv {α : Type} (s : SysState α) : Prop :=
  (s.resv = none ∧ s.result = none ∧ s.invoked = 0 ∧
    (∀ i, s.phases i ≠ Phase.computing) ∧ (∀ i o, s.phases i ≠ Phase.done o))
  ∨ (∃ j, s.resv = some j ∧ s.result = none ∧ s.invoked = 1 ∧
      s.phases j = Phase.computing ∧
      (∀ i, i ≠ j → s.phases i ≠ Phase.computing) ∧
      (∀ i o, s.phases i ≠ Phase.done o))
  ∨ (∃ o, s.result = some o ∧ s.resv = none ∧ s.invoked = 1 ∧
      (∀ i, s.phases i ≠ Phase.computing) ∧
      (∀ i o', s.phases i = Phase.done o' → o' = o))

end Dedup

/-! ### Tier Registry lemmas -/

theorem mem_tiersOrderedByCapacity {reg : List Tier} {t : Tier} :
    t ∈ tiersOrderedByCapacity reg ↔ t ∈ reg ∧ t.enabled = true := by
  unfold tiersOrderedByCapacity
  rw [List.mem_insertionSort, List.mem_filter]

theorem sorted_tiersOrderedByCapacity (reg : List Tier) :
    List.Sorted capLE (tiersOrderedByCapacity reg) :=
  List.sorted_insertionSort capLE _

theorem find?_sorted_min {p : Tier → Bool} :
    ∀ {l : List Tier} {t : Tier}, List.Sorted capLE l → l.find? p = some t →
      ∀ u ∈ l, p u = true → t.max_sites ≤ u.max_sites := by
  intro l
  induction l with
  | nil => intro t _ h; simp at h
  | cons x xs ih =>
    intro t hs hf u hu hpu
    rw [List.sorted_cons] at hs
    by_cases hp : p x = true
    · rw [List.find?_cons_of_pos _ hp] at hf
      cases hf
      rcases List.mem_cons.mp hu with h | h
      · exact h ▸ Nat.le_refl _
      · exact hs.1 u h
    · rw [List.find?_cons_of_neg _ hp] at hf
      rcases List.mem_cons.mp hu with h | h
      · exact absurd (h ▸ hpu) hp
      · exact ih hs.2 hf u h hpu

/-- C1: `tierFor(s)` returns the smallest-capacity enabled Tier whose
maximum size is at least `s`; it returns `none` exactly when `s`
exceeds the maximum of every enabled Tier; and a size exactly equal to
an enabled Tier's maximum is routed to a Tier of exactly that capacity,
never escalated to a larger one. -/
theorem tierFor_smallest_capable (reg : List Tier) (s : Nat) :
    (∀ t, tierFor reg s = some t →
      t ∈ reg ∧ t.enabled = true ∧ s ≤ t.max_sites ∧
      ∀ u ∈ reg, u.enabled = true → s ≤ u.max_sites → t.max_sites ≤ u.max_sites)
    ∧ (tierFor reg s = none ↔ ∀ t ∈ reg, t.enabled = true → t.max_sites < s)
    ∧ (∀ t ∈ reg, t.enabled = true → t.max_sites = s →
        ∃ u, tierFor reg s = some u ∧ u.max_sites = s) := by
  refine ⟨?_, ?_, ?_⟩
  · intro t hf
    unfold tierFor at hf
    have hmem : t ∈ tiersOrderedByCapacity reg := List.mem_of_find?_eq_some hf
    have hp := List.find?_some hf
    simp only [decide_eq_true_eq] at hp
    have hmem' := mem_tiersOrderedByCapacity.mp hmem
    refine ⟨hmem'.1, hmem'.2, hp, ?_⟩
    intro u hu hen hsu
    exact find?_sorted_min (sorted_tiersOrderedByCapacity reg) hf u
      (mem_tiersOrderedByCapacity.mpr ⟨hu, hen⟩) (decide_eq_true hsu)
  · unfold tierFor
    rw [List.find?_eq_none]
    constructor
    · intro h t ht hen
      have := h t (mem_tiersOrderedByCapacity.mpr ⟨ht, hen⟩)
      simpa using this
    · intro h t ht
      have := h t (mem_tiersOrderedByCapacity.mp ht).1 (mem_tiersOrderedByCapacity.mp ht).2
      simp [Nat.not_le.mpr this]
  · intro t ht hen hmax
    cases hf : tierFor reg s with
    | none =>
      rw [tierFor, List.find?_eq_none] at hf
      have := hf t (mem_tiersOrderedByCapacity.mpr ⟨ht, hen⟩)
      rw [hmax] at this
      simp at this
    | some u =>
      unfold tierFor at hf
      refine ⟨u, rfl, Nat.le_antisymm ?_ ?_⟩
      · have := find?_sorted_min (sorted_tiersOrderedByCapacity reg) hf t
          (mem_tiersOrderedByCapacity.mpr ⟨ht, hen⟩) (decide_eq_true (hmax ▸ Nat.le_refl s))
        exact hmax ▸ this
      · have hp := List.find?_some hf
        simp only [decide_eq_true_eq] at hp
        exact hp

/-- C1 witness: at the `SERVER_ROLES` registry with size 20, `tierFor`
returns Tier A, whose capacity is minimal among capable tiers. -/
theorem tierFor_smallest_capable_witness :
    tierA.max_sites ≤ tierB.max_sites ∧ 20 ≤ tierA.max_sites :=
  have h := (tierFor_smallest_capable defaultRegistry 20).1 tierA (by decide)
  ⟨h.2.2.2 tierB (by decide) (by decide) (by decide), h.2.2.1⟩

/-! ### Fallback chain lemmas -/

theorem strictAscendAux_mem_gt :
    ∀ (l : List Tier) (cap : Nat) (x : Tier), x ∈ strictAscendAux cap l →
      x ∈ l ∧ cap < x.max_sites := by
  intro l
  induction l with
  | nil => intro cap x hx; simp [strictAscendAux] at hx
  | cons t ts ih =>
    intro cap x hx
    unfold strictAscendAux at hx
    by_cases h : cap < t.max_sites
    · rw [if_pos h] at hx
      rcases List.mem_cons.mp hx with rfl | hx'
      · exact ⟨List.mem_cons_self _ _, h⟩
      · have := ih _ x hx'
        exact ⟨List.mem_cons_of_mem _ this.1, Nat.lt_trans h this.2⟩
    · rw [if_neg h] at hx
      have := ih cap x hx
      exact ⟨List.mem_cons_of_mem t this.1, this.2⟩

theorem strictAscendAux_pairwise :
    ∀ (l : List Tier) (cap : Nat),
      List.Pairwise (fun a b => a.max_sites < b.max_sites) (strictAscendAux cap l) := by
  intro l
  induction l with
  | nil => intro cap; simp [strictAscendAux]
  | cons t ts ih =>
    intro cap
    unfold strictAscendAux
    by_cases h : cap < t.max_sites
    · rw [if_pos h]
      exact List.pairwise_cons.mpr
        ⟨fun x hx => (strictAscendAux_mem_gt ts t.max_sites x hx).2, ih t.max_sites⟩
    · rw [if_neg h]; exact ih cap

theorem fallbackChain_mem {reg : List Tier} {s : Nat} {t : Tier} :
    t ∈ fallbackChain reg s →
      t ∈ reg ∧ t.enabled = true ∧ s ≤ t.max_sites := by
  intro ht
  unfold fallbackChain at ht
  split at ht
  · simp at ht
  · rename_i x xs heq
    have hsub : t ∈ (tiersOrderedByCapacity reg).filter
        (fun t => decide (s ≤ t.max_sites)) := by
      rw [heq]
      rcases List.mem_cons.mp ht with rfl | ht'
      · exact List.mem_cons_self _ _
      · exact List.mem_cons_of_mem _ (strictAscendAux_mem_gt xs _ t ht').1
    have h1 := List.mem_filter.mp hsub
    have h2 := mem_tiersOrderedByCapacity.mp h1.1
    exact ⟨h2.1, h2.2, of_decide_eq_true h1.2⟩

theorem fallbackChain_pairwise (reg : List Tier) (s : Nat) :
    List.Pairwise (fun a b => a.max_sites < b.max_sites) (fallbackChain reg s) := by
  unfold fallbackChain
  split
  · exact List.Pairwise.nil
  · rename_i x xs heq
    exact List.pairwise_cons.mpr
      ⟨fun y hy => (strictAscendAux_mem_gt xs x.max_sites y hy).2,
       strictAscendAux_pairwise xs x.max_sites⟩

theorem contacted_sublist (backend : Tier → Outcome) :
    ∀ l : List Tier, List.Sublist (contacted backend l) l := by
  intro l
  induction l with
  | nil => exact List.Sublist.refl []
  | cons t ts ih =>
    unfold contacted
    cases backend t with
    | success r => exact (List.nil_sublist ts).cons₂ t
    | timeout => exact ih.cons₂ t
    | backendError => exact ih.cons₂ t

theorem capacity_pairwise_nodup {l : List Tier}
    (h : List.Pairwise (fun a b => a.max_sites < b.max_sites) l) : l.Nodup :=
  h.imp fun hab heq => absurd (heq ▸ hab) (Nat.lt_irrefl _)

/-- C2: the Dispatcher never sends a request to a Tier whose maximum
supported size is below the request's size metric — neither in the
fallback chain it plans nor among the tiers it actually contacts, on
any step including fallback attempts. -/
theorem dispatch_respects_capacity (reg : List Tier) (backend : Tier → Outcome) (s : Nat) :
    (∀ t ∈ fallbackChain reg s, s ≤ t.max_sites)
    ∧ (∀ t ∈ contactedTiers reg backend s, s ≤ t.max_sites) := by
  refine ⟨fun t ht => (fallbackChain_mem ht).2.2, fun t ht => ?_⟩
  have := (contacted_sublist backend (fallbackChain reg s)).subset ht
  exact (fallbackChain_mem this).2.2

/-- C2 witness: with the `SERVER_ROLES` registry, a backend that always
times out, and size 15, Tier A is contacted and indeed 15 ≤ 20. -/
theorem dispatch_respects_capacity_witness :
    15 ≤ tierA.max_sites :=
  (dispatch_respects_capacity defaultRegistry (fun _ => Outcome.timeout) 15).2
    tierA (by decide)

/-- C5: for every request, the fallback chain is strictly increasing in
maximum capacity, contains no Tier twice, and contains only enabled
tiers of the registry; the tiers actually attempted are a sub-sequence
of that chain and inherit all three properties, so no Tier is ever
revisited and no disabled Tier is ever attempted. -/
theorem fallbackChain_strictly_increasing (reg : List Tier)
    (backend : Tier → Outcome) (s : Nat) :
    List.Pairwise (fun a b => a.max_sites < b.max_sites) (fallbackChain reg s)
    ∧ (fallbackChain reg s).Nodup
    ∧ (∀ t ∈ fallbackChain reg s, t ∈ reg ∧ t.enabled = true)
    ∧ List.Sublist (contactedTiers reg backend s) (fallbackChain reg s)
    ∧ List.Pairwise (fun a b => a.max_sites < b.max_sites) (contactedTiers reg backend s)
    ∧ (contactedTiers reg backend s).Nodup
    ∧ (∀ t ∈ contactedTiers reg backend s, t ∈ reg ∧ t.enabled = true) := by
  have hp := fallbackChain_pairwise reg s
  have hsub : List.Sublist (contactedTiers reg backend s) (fallbackChain reg s) :=
    contacted_sublist backend (fallbackChain reg s)
  have hp' := hp.sublist hsub
  refine ⟨hp, capacity_pairwise_nodup hp, ?_, hsub, hp', capacity_pairwise_nodup hp', ?_⟩
  · intro t ht
    exact ⟨(fallbackChain_mem ht).1, (fallbackChain_mem ht).2.1⟩
  · intro t ht
    have := hsub.subset ht
    exact ⟨(fallbackChain_mem this).1, (fallbackChain_mem this).2.1⟩

/-- C5 witness: with the `SERVER_ROLES` registry, an always-failing
backend and size 15, Tier A (attempted first) is an enabled registry
tier. -/
theorem fallbackChain_strictly_increasing_witness :
    tierA ∈ defaultRegistry ∧ tierA.enabled = true :=
  (fallbackChain_strictly_increasing defaultRegistry (fun _ => Outcome.backendError) 15).2.2.1
    tierA (by decide)

/-- C4: a request larger than every enabled Tier's maximum fails with
`AllTiersExhausted` immediately, contacting no backend; and on the
`SERVER_ROLES` registry (Tier A max 20 / timeout 5, Tier B max 1000 /
timeout 600): size 15 routes to A and falls back to B on A's timeout,
size 50 routes directly to B, size 5000 fails with
`AllTiersExhausted`. -/
theorem dispatch_scenarios :
    (∀ (reg : List Tier) (backend : Tier → Outcome) (s : Nat),
      (∀ t ∈ reg, t.enabled = true → t.max_sites < s) →
      dispatch reg backend s = DispatchResult.allTiersExhausted
      ∧ contactedTiers reg backend s = [])
    ∧ (fallbackChain defaultRegistry 15 = [tierA, tierB]
      ∧ tierFor defaultRegistry 15 = some tierA
      ∧ fallbackChain defaultRegistry 50 = [tierB]
      ∧ tierFor defaultRegistry 50 = some tierB
      ∧ tierFor defaultRegistry 5000 = none
      ∧ fallbackChain defaultRegistry 5000 = [])
    ∧ (∀ (backend : Tier → Outcome) (r : PlanningResult),
      backend tierA = Outcome.timeout → backend tierB = Outcome.success r →
      dispatch defaultRegistry backend 15 = DispatchResult.ok r
      ∧ contactedTiers defaultRegistry backend 15 = [tierA, tierB])
    ∧ (∀ (backend : Tier → Outcome) (r : PlanningResult),
      backend tierB = Outcome.success r →
      dispatch defaultRegistry backend 50 = DispatchResult.ok r
      ∧ contactedTiers defaultRegistry backend 50 = [tierB])
    ∧ (∀ backend : Tier → Outcome,
      dispatch defaultRegistry backend 5000 = DispatchResult.allTiersExhausted
      ∧ contactedTiers defaultRegistry backend 5000 = []) := by
  have hnil : ∀ (reg : List Tier) (s : Nat),
      (∀ t ∈ reg, t.enabled = true → t.max_sites < s) → fallbackChain reg s = [] := by
    intro reg s h
    unfold fallbackChain
    have hfe : (tiersOrderedByCapacity reg).filter
        (fun t => decide (s ≤ t.max_sites)) = [] := by
      rw [List.filter_eq_nil_iff]
      intro a ha
      have h2 := mem_tiersOrderedByCapacity.mp ha
      simpa using Nat.not_le.mpr (h a h2.1 h2.2)
    rw [hfe]
  have h15 : fallbackChain defaultRegistry 15 = [tierA, tierB] := by decide
  have h50 : fallbackChain defaultRegistry 50 = [tierB] := by decide
  refine ⟨?_, ⟨h15, by decide, h50, by decide, by decide, by decide⟩, ?_, ?_, ?_⟩
  · intro reg backend s h
    constructor
    · unfold dispatch; rw [hnil reg s h]; rfl
    · unfold contactedTiers; rw [hnil reg s h]; rfl
  · intro backend r hA hB
    constructor
    · unfold dispatch; rw [h15]; simp [runChain, hA, hB]
    · unfold contactedTiers; rw [h15]; simp [contacted, hA, hB]
  · intro backend r hB
    constructor
    · unfold dispatch; rw [h50]; simp [runChain, hB]
    · unfold contactedTiers; rw [h50]; simp [contacted, hB]
  · intro backend
    have h5000 : fallbackChain defaultRegistry 5000 = [] := by decide
    constructor
    · unfold dispatch; rw [h5000]; rfl
    · unfold contactedTiers; rw [h5000]; rfl

/-- C4 witness: a concrete backend where Tier A times out and Tier B
answers — a request of size 15 falls back to B and succeeds after
contacting exactly A then B. -/
theorem dispatch_scenarios_witness :
    dispatch defaultRegistry
      (fun t => if t.max_sites = 20 then Outcome.timeout
                else Outcome.success ⟨"plan"⟩) 15
      = DispatchResult.ok ⟨"plan"⟩
    ∧ contactedTiers defaultRegistry
      (fun t => if t.max_sites = 20 then Outcome.timeout
                else Outcome.success ⟨"plan"⟩) 15
      = [tierA, tierB] :=
  dispatch_scenarios.2.2.1
    (fun t => if t.max_sites = 20 then Outcome.timeout
              else Outcome.success ⟨"plan"⟩)
    ⟨"plan"⟩ (by decide) (by decide)

/-! ### Fingerprint Cache -/

/-- C7 counterexample: the round-trip law fails as universally stated —
when the cache already holds a live entry with a different value for
the same Fingerprint, the store contract lets the original value win
(spec §4.1 / §7 CacheInconsistency), so the immediate lookup returns
the original value, not the newly stored one. -/
theorem store_lookup_roundtrip_cex :
    FCache.lookup
      (FCache.store [("f", ⟨⟨"old"⟩, 0, 10⟩)] 5 "f" ⟨"new"⟩ 100) 5 "f"
      ≠ some ⟨"new"⟩ := by decide

/-- C7 (amended): `store(F, V, ttl)` followed immediately by
`lookup(F)` returns exactly V, provided any live entry the cache
already holds for F carries that same value V (in particular whenever
the cache holds no live entry for F); `lookup` is a pure total function
of the cache state, so it never blocks on backend work. -/
theorem store_lookup_roundtrip (c : Cache) (now ttl : Nat) (f : String)
    (v : PlanningResult)
    (h : ∀ e, List.lookup f c = some e → now ≤ e.expiry → e.value = v) :
    FCache.lookup (FCache.store c now f v ttl) now f = some v := by
  cases he : List.lookup f c with
  | some e =>
    by_cases hl : now ≤ e.expiry
    · have hs : FCache.store c now f v ttl = c := by
        simp [FCache.store, he, hl]
      rw [hs]
      simp [FCache.lookup, he, hl, h e he hl]
    · have hs : FCache.store c now f v ttl
          = (f, ⟨v, now, now + ttl⟩) :: c := by
        simp [FCache.store, he, hl]
      rw [hs]
      simp [FCache.lookup, List.lookup_cons_self, Nat.le_add_right]
  | none =>
    have hs : FCache.store c now f v ttl
        = (f, ⟨v, now, now + ttl⟩) :: c := by
      simp [FCache.store, he]
    rw [hs]
    simp [FCache.lookup, List.lookup_cons_self, Nat.le_add_right]

/-- C7 witness: storing into an empty cache and looking up immediately
returns the stored value. -/
theorem store_lookup_roundtrip_witness :
    FCache.lookup (FCache.store [] 3 "f" ⟨"v"⟩ 7) 3 "f" = some ⟨"v"⟩ :=
  store_lookup_roundtrip [] 3 7 "f" ⟨"v"⟩ (by intro e he; simp at he)

/-- C8: a CacheEntry is never served past its expiry time — a lookup
only ever returns the value of a live entry, and when every entry for
the Fingerprint has expired, lookup returns absent and the next
`handle` for that content recomputes via the Dispatcher (its response
is the Dispatcher's and the Dispatcher-invoked flag is set). -/
theorem cache_never_serves_expired (c : Cache) (f : String) (now : Nat) :
    (∀ v, FCache.lookup c now f = some v →
      ∃ e, List.lookup f c = some e ∧ now ≤ e.expiry ∧ v = e.value)
    ∧ ((∀ e, List.lookup f c = some e → e.expiry < now) →
      FCache.lookup c now f = none
      ∧ ∀ (reg : List Tier) (backend : Tier → Outcome) (ttl : Nat) (s : Nat),
        (handle reg backend c now ttl f s).2.2 = true
        ∧ (handle reg backend c now ttl f s).1 = dispatch reg backend s) := by
  constructor
  · intro v hv
    cases he : List.lookup f c with
    | some e =>
      simp [FCache.lookup, he] at hv
      exact ⟨e, rfl, hv.1, hv.2.symm⟩
    | none => simp [FCache.lookup, he] at hv
  · intro hexp
    have hnone : FCache.lookup c now f = none := by
      cases he : List.lookup f c with
      | some e =>
        simp [FCache.lookup, he]
        exact hexp e he
      | none => simp [FCache.lookup, he]
    refine ⟨hnone, ?_⟩
    intro reg backend ttl s
    unfold handle
    rw [hnone]
    cases hd : dispatch reg backend s with
    | ok r => exact ⟨rfl, rfl⟩
    | allTiersExhausted => exact ⟨rfl, rfl⟩

/-- C8 witness: the spec's scenario — store at time 0 with TTL 1, look
up at time 2: the entry has expired, lookup is absent, and `handle`
recomputes via the Dispatcher. -/
theorem cache_never_serves_expired_witness :
    FCache.lookup (FCache.store [] 0 "f" ⟨"v"⟩ 1) 2 "f" = none
    ∧ (handle defaultRegistry (fun _ => Outcome.timeout)
        (FCache.store [] 0 "f" ⟨"v"⟩ 1) 2 9 "f" 15).2.2 = true :=
  have h := (cache_never_serves_expired (FCache.store [] 0 "f" ⟨"v"⟩ 1) "f" 2).2
    (by intro e he; simp [FCache.store] at he; rw [← he]; decide)
  ⟨h.1, (h.2 defaultRegistry (fun _ => Outcome.timeout) 9 15).1⟩

/-! ### Planning endpoint and configuration -/

/-- C9: for every request body, `plan_sync` returns HTTP 501 with the
fixed not-implemented error payload; no input ever produces a
`PlanningResult`. -/
theorem plan_sync_unimplemented (request : List (String × String)) :
    plan_sync request
      = PlanResponse.failure 501
          "Planning endpoint not yet implemented"
          "Phase 5: AI Planning Implementation"
    ∧ ∀ (r : PlanningResult) (st : Nat),
        plan_sync request ≠ PlanResponse.result r st :=
  ⟨rfl, fun _ _ h => PlanResponse.noConfusion h⟩

/-- C3: the planning endpooint completes synchronously — on every
input the handler in the source returns a failure response whose status
is 501, never a 202-style deferral; and under the spec's status
mapping, every gateway outcome maps success to a 200 PlanningResult
response and failures to 4xx/5xx, with 202 never produced. -/
theorem plan_endpoint_synchronous :
    (∀ request : List (String × String),
      (∃ st e m, plan_sync request = PlanResponse.failure st e m ∧ st ≠ 202)
      ∧ ∀ (r : PlanningResult) (st : Nat),
          plan_sync request ≠ PlanResponse.result r st)
    ∧ (∀ o : GatewayOutcome, planStatus o ≠ 202)
    ∧ (∀ o : GatewayOutcome,
        planStatus o = 200 ↔ ∃ r, o = GatewayOutcome.success r) := by
  refine ⟨?_, ?_, ?_⟩
  · intro request
    exact ⟨⟨501, _, _, rfl, by decide⟩, fun _ _ h => PlanResponse.noConfusion h⟩
  · intro o; cases o <;> simp [planStatus]
  · intro o
    cases o with
    | success r => simp [planStatus]
    | invalidRequest => simp [planStatus]
    | allTiersExhausted => simp [planStatus]
    | timeout => simp [planStatus]
    | unexpected => simp [planStatus]

/-- C10: for every `SERVER_ID` other than `'A'` or `'B'`,
`SERVER_CONFIG` silently falls back to the `'A'` role entry
(max_sites 20, timeout 5, enabled); and for every `SERVER_ID`
whatsoever, the resulting configuration is an enabled tier. -/
theorem SERVER_CONFIG_fallback (server_id : String)
    (hA : server_id ≠ "A") (hB : server_id ≠ "B") :
    SERVER_CONFIG server_id = tierA
    ∧ (SERVER_CONFIG server_id).max_sites = 20
    ∧ (SERVER_CONFIG server_id).timeout_seconds = 5
    ∧ (SERVER_CONFIG server_id).enabled = true
    ∧ ∀ sid : String, (SERVER_CONFIG sid).enabled = true := by
  have h : SERVER_CONFIG server_id = tierA := by
    have eA : (server_id == "A") = false := beq_eq_false_iff_ne.mpr hA
    have eB : (server_id == "B") = false := beq_eq_false_iff_ne.mpr hB
    simp [SERVER_CONFIG, SERVER_ROLES, List.lookup, eA, eB]
  refine ⟨h, by rw [h]; rfl, by rw [h]; rfl, by rw [h]; rfl, ?_⟩
  intro sid
  by_cases hA' : sid = "A"
  · subst hA'; decide
  · by_cases hB' : sid = "B"
    · subst hB'; decide
    · have h' : SERVER_CONFIG sid = tierA := by
        have eA : (sid == "A") = false := beq_eq_false_iff_ne.mpr hA'
        have eB : (sid == "B") = false := beq_eq_false_iff_ne.mpr hB'
        simp [SERVER_CONFIG, SERVER_ROLES, List.lookup, eA, eB]
      rw [h']
      rfl

/-- C10 witness: an unknown server id such as `"C"` falls back to the
Tier A configuration. -/
theorem SERVER_CONFIG_fallback_witness :
    SERVER_CONFIG "C" = tierA :=
  (SERVER_CONFIG_fallback "C" (by decide) (by decide)).1

/-! ### At-most-one computation per Fingerprint -/

namespace Dedup

theorem init_inv (α : Type) : Inv (init α) := by
  left
  refine ⟨rfl, rfl, rfl, ?_, ?_⟩
  · intro i h; exact Phase.noConfusion h
  · intro i o h; exact Phase.noConfusion h

theorem step_preserves {α : Type} {s s' : SysState α}
    (hstep : Step s s') (hinv : Inv s) : Inv s' := by
  cases hstep with
  | acquire i hph hresv hres =>
    rcases hinv with ⟨_, _, hz, hnc, hnd⟩ | ⟨j, hr, _, _, _, _, _⟩ | ⟨o, hrv, _, _, _, _⟩
    · right; left
      refine ⟨i, rfl, rfl, by simp [hz], by simp [setPhase], ?_, ?_⟩
      · intro k hk
        simp [setPhase, hk]
        exact hnc k
      · intro k o
        by_cases hki : k = i
        · subst hki; simp [setPhase]
        · simp [setPhase, hki]
          exact hnd k o
    · rw [hresv] at hr; cases hr
    · rw [hres] at hrv; cases hrv
  | join i j hph hresv =>
    rcases hinv with ⟨hr, _, _, _, _⟩ | ⟨j', hr, hres, hone, hcomp, honly, hnd⟩
      | ⟨o, _, hrn, _, _, _⟩
    · rw [hresv] at hr; cases hr
    · right; left
      have hij : i ≠ j' := by
        intro h
        rw [h, hcomp] at hph
        exact Phase.noConfusion hph
      refine ⟨j', hr, hres, hone, ?_, ?_, ?_⟩
      · simp [setPhase, Ne.symm hij]
        exact hcomp
      · intro k hk
        by_cases hki : k = i
        · subst hki; simp [setPhase]
        · simp [setPhase, hki]
          exact honly k hk
      · intro k o
        by_cases hki : k = i
        · subst hki; simp [setPhase]
        · simp [setPhase, hki]
          exact hnd k o
    · rw [hresv] at hrn; cases hrn
  | hit i o hph hres =>
    rcases hinv with ⟨_, hrv, _, _, _⟩ | ⟨j, _, hrv, _, _, _, _⟩
      | ⟨o', hro, hresv, hone, hnc, hdone⟩
    · rw [hres] at hrv; cases hrv
    · rw [hres] at hrv; cases hrv
    · right; right
      have ho : o = o' := by
        rw [hres] at hro; exact Option.some_inj.mp hro
      refine ⟨o', hro, hresv, hone, ?_, ?_⟩
      · intro k
        by_cases hki : k = i
        · subst hki; simp [setPhase]
        · simp [setPhase, hki]
          exact hnc k
      · intro k o''
        by_cases hki : k = i
        · subst hki
          simp [setPhase]
          intro h
          exact h.symm.trans ho
        · simp [setPhase, hki]
          exact hdone k o''
  | complete i o hph =>
    rcases hinv with ⟨_, _, _, hnc, _⟩ | ⟨j, hr, hres, hone, hcomp, honly, hnd⟩
      | ⟨o', _, _, _, hnc, _⟩
    · exact absurd hph (hnc i)
    · right; right
      have hij : i = j := by
        by_contra h
        exact honly i h hph
      refine ⟨o, rfl, rfl, hone, ?_, ?_⟩
      · intro k
        by_cases hki : k = i
        · subst hki; simp [setPhase]
        · simp [setPhase, hki]
          exact honly k (hij ▸ hki)
      · intro k o''
        by_cases hki : k = i
        · subst hki
          simp [setPhase]
          intro h
          exact h.symm
        · simp [setPhase, hki]
          intro h
          exact absurd h (hnd k o'')
    · exact absurd hph (hnc i)
  | collect i o hph hres =>
    rcases hinv with ⟨_, hrv, _, _, _⟩ | ⟨j, _, hrv, _, _, _, _⟩
      | ⟨o', hro, hresv, hone, hnc, hdone⟩
    · rw [hres] at hrv; cases hrv
    · rw [hres] at hrv; cases hrv
    · right; right
      have ho : o = o' := by
        rw [hres] at hro; exact Option.some_inj.mp hro
      refine ⟨o', hro, hresv, hone, ?_, ?_⟩
      · intro k
        by_cases hki : k = i
        · subst hki; simp [setPhase]
        · simp [setPhase, hki]
          exact hnc k
      · intro k o''
        by_cases hki : k = i
        · subst hki
          simp [setPhase]
          intro h
          exact h.symm.trans ho
        · simp [setPhase, hki]
          exact hdone k o''

theorem reachable_inv {α : Type} {s : SysState α} (h : Reachable s) : Inv s := by
  induction h with
  | refl => exact init_inv α
  | tail _ hstep ih => exact step_preserves hstep ih

end Dedup

/-- C6: in every interleaving of concurrent `handle` calls for one
Fingerprint under the atomic reserve/release protocol, the backend is
invoked at most once, and any two callers that finish observe the same
outcome — the single winning computation's. -/
theorem handle_dedup_at_most_once {α : Type} (s : Dedup.SysState α)
    (h : Dedup.Reachable s) :
    s.invoked ≤ 1
    ∧ ∀ i j oi oj, s.phases i = Dedup.Phase.done oi →
        s.phases j = Dedup.Phase.done oj → oi = oj := by
  rcases Dedup.reachable_inv h with ⟨_, _, hz, _, hnd⟩
    | ⟨j', _, _, hone, _, _, hnd⟩ | ⟨o, _, _, hone, _, hdone⟩
  · exact ⟨by rw [hz]; exact Nat.zero_le 1,
      fun i j oi oj hi _ => absurd hi (hnd i oi)⟩
  · exact ⟨by rw [hone], fun i j oi oj hi _ => absurd hi (hnd i oi)⟩
  · refine ⟨by rw [hone], fun i j oi oj hi hj => ?_⟩
    rw [hdone i oi hi, hdone j oj hj]

/-- C6 witness: the state reached when caller 0 acquires the
reservation and completes with a concrete result — the invocation
count is at most one. -/
theorem handle_dedup_at_most_once_witness :
    (Dedup.SysState.mk
      (Dedup.setPhase
        (Dedup.setPhase (fun _ => Dedup.Phase.init) 0 Dedup.Phase.computing) 0
        (Dedup.Phase.done (⟨"r"⟩ : PlanningResult)))
      none (some ⟨"r"⟩) 1).invoked ≤ 1 :=
  (handle_dedup_at_most_once _
    (Relation.ReflTransGen.tail
      (Relation.ReflTransGen.tail Relation.ReflTransGen.refl
        (Dedup.Step.acquire (Dedup.init PlanningResult) 0 rfl rfl rfl))
      (Dedup.Step.complete _ 0 ⟨"r"⟩ (by simp [Dedup.setPhase])))).1

/-- C9 witness: a concrete request body gets the 501 not-implemented
failure. -/
theorem plan_sync_unimplemented_witness :
    plan_sync [("sites", "3")]
      = PlanResponse.failure 501
          "Planning endpoint not yet implemented"
          "Phase 5: AI Planning Implementation" :=
  (plan_sync_unimplemented [("sites", "3")]).1

/-- C3 witness: at a concrete request the handler returns a non-202
failure, and a successful gateway outcome maps to status 200. -/
theorem plan_endpoint_synchronous_witness :
    (∃ st e m, plan_sync [] = PlanResponse.failure st e m ∧ st ≠ 202)
    ∧ planStatus (GatewayOutcome.success ⟨"r"⟩) = 200 :=
  ⟨(plan_endpoint_synchronous.1 []).1,
   (plan_endpoint_synchronous.2.2 (GatewayOutcome.success ⟨"r"⟩)).mpr ⟨⟨"r"⟩, rfl⟩⟩
